import Mathlib

/-!
Verification of the dependency-graph visualizer (`src/task.py`).

The Python source is shallowly embedded: Python `str` is Lean `String`
(whose logical model is a list of characters), `dict` is an ordered
association list, `set` is a duplicate-free list used only through
membership, and mutation is explicit state passing.  Recursion in the
traversal is made total with an explicit fuel argument; a Boolean flag in
every result records whether the computation completed without the fuel
running out, so termination of the Python code is the statement that some
computable fuel bound always yields a completed run.
-/

set_option maxRecDepth 8000

namespace Task2

/-! ## Python string primitives

Each helper mirrors one Python `str` operation, implemented by structural
recursion over the character list so that concrete runs reduce in the
kernel. -/

/-- Python whitespace test used by `str.strip()`. -/
def pyIsSpace (c : Char) : Bool :=
  c == ' ' || c == '\t' || c == '\n' || c == '\x0d' || c == '\x0b' || c == '\x0c'

/-- Python `s.strip()`: drop whitespace from both ends. -/
def pyStrip (s : String) : String :=
  String.mk (((s.data.dropWhile pyIsSpace).reverse.dropWhile pyIsSpace).reverse)

/-- Worker for `pySplit`: splits a character list at each occurrence of a
non-empty separator, scanning left to right.  The fuel starts at the length
of the list, which is enough for every step to be taken, so the fuel-zero
fallback is never reached on the intended calls. -/
def splitChars (sep : List Char) : Nat → List Char → List Char → List (List Char)
  | _, [], acc => [acc.reverse]
  | 0, cs, acc => [acc.reverse ++ cs]
  | fuel + 1, c :: cs, acc =>
    if sep.isPrefixOf (c :: cs) then
      acc.reverse :: splitChars sep fuel ((c :: cs).drop sep.length) []
    else
      splitChars sep fuel cs (c :: acc)

/-- Python `s.split(sep)` for a non-empty separator. -/
def pySplit (s sep : String) : List String :=
  (splitChars sep.data s.data.length s.data []).map String.mk

/-- Python `sub in s` for a non-empty `sub` (every use in the source is
guarded so that `sub` is non-empty). -/
def containsSub (s sub : String) : Bool :=
  (pySplit s sub).length != 1

/-- Python `s.startswith(pre)`. -/
def pyStartsWith (s pre : String) : Bool :=
  pre.data.isPrefixOf s.data

/-- Python `s[n:]`. -/
def pyDrop (s : String) (n : Nat) : String :=
  String.mk (s.data.drop n)

/-- Python `s.rstrip('/')` as used in `CargoRepository.__init__`. -/
def pyRstripSlash (s : String) : String :=
  String.mk ((s.data.reverse.dropWhile (· == '/')).reverse)

/-- Python truthiness of a string: non-empty. -/
def pyIsEmpty (s : String) : Bool :=
  s.data.isEmpty

/-- Python `list.index(x)` (index of the first occurrence). -/
def pyIndex (x : String) : List String → Nat
  | [] => 0
  | y :: ys => if y == x then 0 else pyIndex x ys + 1

/-! ## Python containers -/

/-- A Python `dict` from package keys to dependency-name lists, as an
insertion-ordered association list with distinct keys. -/
abbrev Dict := List (String × List String)

/-- Python `d[k]` lookup / `k in d` support. -/
def dictLookup (m : Dict) (k : String) : Option (List String) :=
  match m with
  | [] => none
  | (k', v) :: rest => if k' == k then some v else dictLookup rest k

/-- Python `d[k] = v`: overwrite in place, or append a fresh key. -/
def dictSet (m : Dict) (k : String) (v : List String) : Dict :=
  match m with
  | [] => [(k, v)]
  | (k', v') :: rest => if k' == k then (k', v) :: rest else (k', v') :: dictSet rest k v

/-- Python `defaultdict(list)`: `d[k].append(x)`. -/
def ddAppend (m : Dict) (k : String) (x : String) : Dict :=
  match dictLookup m k with
  | some l => dictSet m k (l ++ [x])
  | none => m ++ [(k, [x])]

/-- Python `set.add` on a set modeled as a duplicate-free list. -/
def setAdd (s : List String) (x : String) : List String :=
  if x ∈ s then s else s ++ [x]

/-! ## Backing-source parsing (`CargoRepository._parse_test_file` and
`CargoRepository._build_reverse_cache_from_file`)

Both methods inspect each raw line the same way, so that shared per-line
step is factored out as `splitLine`. -/

/-- Outcome of the shared per-line header processing in both file scans:
the stripped line is skipped when empty or lacking the arrow; otherwise
the part before the first arrow is split on the version separator, which
raises `ValueError` (the `err` case) when it contains two or more of the
character that separates name from version, because the Python code
unpacks `pkg_info.split` into exactly two variables. -/
inductive LineStep where
  | skip
  | err
  | record (pkg_name pkg_ver rhs : String)
deriving Repr, DecidableEq

/-- Shared per-line processing: strip, require the arrow, split off the
header and destructure its optional version suffix. -/
def splitLine (line : String) : LineStep :=
  let l := pyStrip line
  if pyIsEmpty l || !containsSub l "->" then .skip
  else
    let parts := pySplit l "->"
    let pkg_info := pyStrip (parts.headD "")
    if containsSub pkg_info "@" then
      match pySplit pkg_info "@" with
      | [n, v] => .record n v (parts.getD 1 "")
      | _ => .err
    else
      .record pkg_info "" (parts.getD 1 "")

/-- The dependency-list cleanup applied to the right-hand side of a
record: split on commas, strip each token, keep the non-empty tokens and
discard any version suffix. -/
def cleanDeps (rhs : String) : List String :=
  let deps := (pySplit rhs ",").map pyStrip
  (deps.filter (fun d => !pyIsEmpty (pyStrip d))).map (fun d => (pySplit d "@").headD "")

/-- The line loop of `_parse_test_file`: the first record whose name
matches (and whose version matches when the query pins one) wins; a
malformed header raises, which aborts the loop. -/
def parseLoop (package version : String) : List String → Except Unit (Option (List String))
  | [] => .ok none
  | line :: rest =>
    match splitLine line with
    | .skip => parseLoop package version rest
    | .err => .error ()
    | .record pkg_name pkg_ver rhs =>
      if pkg_name == package && (pyIsEmpty version || pkg_ver == version) then
        .ok (some (cleanDeps rhs))
      else
        parseLoop package version rest

/-- A file's readable content, or `none` when opening raises
`FileNotFoundError`. -/
abbrev FileContent := Option (List String)

/-- The file system seen by one call, mapping a path to its content. -/
abbrev FileSystem := String → FileContent

/-- `CargoRepository._parse_test_file`: a missing file or an exception
escaping the line loop is caught, a diagnostic is printed and the empty
list is returned. -/
def parse_test_file (file : FileContent) (package version : String) : List String :=
  match file with
  | none => []
  | some lines =>
    match parseLoop package version lines with
    | .ok (some deps) => deps
    | .ok none => []
    | .error _ => []

/-- The line loop of `_build_reverse_cache_from_file`: every record adds
its cleaned dependencies to the reverse cache; a malformed header raises,
aborting the loop while keeping the entries already inserted. -/
def reverseLoop (cache : Dict) : List String → Dict
  | [] => cache
  | line :: rest =>
    match splitLine line with
    | .skip => reverseLoop cache rest
    | .err => cache
    | .record pkg_name _ rhs =>
      reverseLoop ((cleanDeps rhs).foldl (fun c dep => ddAppend c dep pkg_name) cache) rest

/-- `CargoRepository._build_reverse_cache_from_file`: exceptions are
caught with a diagnostic; the cache keeps whatever was inserted before
the failure. -/
def build_reverse_cache_from_file (file : FileContent) (cache : Dict) : Dict :=
  match file with
  | none => cache
  | some lines => reverseLoop cache lines

/-- The static table of `CargoRepository._parse_cargo_dependencies`. -/
def demo_dependencies : Dict :=
  [ ("serde", ["serde_derive", "serde_json"]),
    ("serde_derive", ["proc-macro2", "quote", "syn"]),
    ("serde_json", ["itoa", "ryu", "serde"]),
    ("proc-macro2", ["unicode-xid"]),
    ("syn", ["proc-macro2", "quote", "unicode-xid"]),
    ("quote", ["proc-macro2"]),
    ("itoa", []),
    ("ryu", []),
    ("unicode-xid", []),
    ("tokio", ["futures", "mio", "num_cpus"]),
    ("futures", []),
    ("mio", []),
    ("num_cpus", []),
    ("reqwest", ["futures", "http", "url", "serde"]),
    ("http", []),
    ("url", []) ]

/-- `CargoRepository._parse_cargo_dependencies`. -/
def parse_cargo_dependencies (package : String) : List String :=
  (dictLookup demo_dependencies package).getD []

/-! ## `CargoRepository` -/

/-- The mutable state of a `CargoRepository` instance. -/
structure CargoRepository where
  repo_url : String
  dependency_cache : Dict
  reverse_dependency_cache : Dict
deriving Repr, DecidableEq

/-- `CargoRepository.__init__`. -/
def CargoRepository.init (repo_url : String) : CargoRepository :=
  { repo_url := pyRstripSlash repo_url, dependency_cache := [], reverse_dependency_cache := [] }

/-- The file path encoded in a `file://` repository URL (`repo_url[7:]`). -/
def CargoRepository.filePath (self : CargoRepository) : String :=
  pyDrop self.repo_url 7

/-- The cache key of `get_package_dependencies`: Python's
`f-string package at version` when a version is given, the bare name
otherwise. -/
def cacheKey (package version : String) : String :=
  if !pyIsEmpty version then package ++ "@" ++ version else package

/-- `CargoRepository.get_package_dependencies`.  Returns the dependency
list, the updated repository state, and the number of backing-data
accesses performed (0 on a cache hit, 1 otherwise). -/
def get_package_dependencies (fs : FileSystem) (self : CargoRepository)
    (package version : String) : List String × CargoRepository × Nat :=
  let cache_key := cacheKey package version
  match dictLookup self.dependency_cache cache_key with
  | some deps => (deps, self, 0)
  | none =>
    let deps :=
      if pyStartsWith self.repo_url "file://" then
        parse_test_file (fs self.filePath) package version
      else
        parse_cargo_dependencies package
    let self := { self with dependency_cache := dictSet self.dependency_cache cache_key deps }
    let self := { self with
      reverse_dependency_cache :=
        deps.foldl (fun c dep => ddAppend c dep package) self.reverse_dependency_cache }
    (deps, self, 1)

/-- `CargoRepository._build_reverse_dependency_cache`.  Returns the
updated state and the number of full scans of the backing file (1 in
file-backed mode, 0 otherwise). -/
def build_reverse_dependency_cache (fs : FileSystem) (self : CargoRepository) :
    CargoRepository × Nat :=
  if pyStartsWith self.repo_url "file://" then
    ({ self with
        reverse_dependency_cache :=
          build_reverse_cache_from_file (fs self.filePath) self.reverse_dependency_cache }, 1)
  else
    (self, 0)

/-- `CargoRepository.get_reverse_dependencies`.  Returns the dependent
list, the updated state, and the number of full backing-file scans the
call performed. -/
def CargoRepository.get_reverse_dependencies (fs : FileSystem) (self : CargoRepository)
    (package : String) : List String × CargoRepository × Nat :=
  match dictLookup self.reverse_dependency_cache package with
  | some l => (l, self, 0)
  | none =>
    if self.reverse_dependency_cache.isEmpty then
      let r := build_reverse_dependency_cache fs self
      ((dictLookup r.1.reverse_dependency_cache package).getD [], r.1, r.2)
    else
      ((dictLookup self.reverse_dependency_cache package).getD [], self, 0)

/-! ## `DependencyGraph` -/

/-- The mutable per-traversal state of a `DependencyGraph` instance. -/
structure DependencyGraph where
  graph : Dict
  visited : List String
  cycles : List (List String)
  load_order : List String
deriving Repr, DecidableEq

/-- `DependencyGraph.__init__` / the state right after `reset()`. -/
def DependencyGraph.init : DependencyGraph :=
  { graph := [], visited := [], cycles := [], load_order := [] }

/-- A depth bound: `some m` for an integer `max_depth`, `none` for the
default unlimited bound (Python `float` infinity). -/
abbrev Depth := Option Nat

/-- Python `current_depth >= max_depth` (always false against infinity). -/
def depthReached (current_depth : Nat) (max_depth : Depth) : Bool :=
  match max_depth with
  | none => false
  | some m => current_depth ≥ m

/-- The `for dep in dependencies` loop body of
`build_graph_bfs_recursive`: append the edge `parent -> dep` to the
graph, then recurse into `dep` via `step`.  The recursive call is
abstracted as `step` so that the loop itself is structural on the
dependency list. -/
def buildChildren (parent : String)
    (step : String → CargoRepository → DependencyGraph → CargoRepository × DependencyGraph × Bool) :
    List String → CargoRepository → DependencyGraph → CargoRepository × DependencyGraph × Bool
  | [], repo, g => (repo, g, true)
  | dep :: rest, repo, g =>
    let g := { g with graph := ddAppend g.graph parent dep }
    let r₁ := step dep repo g
    let r₂ := buildChildren parent step rest r₁.1 r₁.2.1
    (r₂.1, r₂.2.1, r₁.2.2 && r₂.2.2)

/-- `DependencyGraph.build_graph_bfs_recursive`, made total with a fuel
argument.  The Boolean in the result is true exactly when the run never
hit the fuel bound, so the Python function's termination on given inputs
is the existence of a fuel making the flag true. -/
def build_graph_bfs_recursive : Nat → FileSystem → CargoRepository → DependencyGraph →
    String → String → Depth → String → Nat → List String →
    CargoRepository × DependencyGraph × Bool
  | 0, _, repo, g, _, _, _, _, _, _ => (repo, g, false)
  | fuel + 1, fs, repo, g, start_package, start_version, max_depth, exclude_substring,
      current_depth, path =>
    if depthReached current_depth max_depth then
      (repo, g, true)
    else if start_package ∈ path then
      (repo,
       { g with cycles := g.cycles ++ [path.drop (pyIndex start_package path) ++ [start_package]] },
       true)
    else if !pyIsEmpty exclude_substring && containsSub start_package exclude_substring then
      (repo, g, true)
    else if start_package ∈ g.visited then
      (repo, g, true)
    else
      let g := { g with
        visited := g.visited ++ [start_package],
        load_order := g.load_order ++ [start_package] }
      let current_path := path ++ [start_package]
      let r := get_package_dependencies fs repo start_package start_version
      buildChildren start_package
        (fun dep repo g =>
          build_graph_bfs_recursive fuel fs repo g dep "" max_depth exclude_substring
            (current_depth + 1) current_path)
        r.1 r.2.1 g

/-- The `while queue` loop of `DependencyGraph.get_reverse_dependencies`,
made total with fuel (one unit per dequeue).  State: the pending queue of
(package, depth) pairs, the visited set, and the accumulated result set
(modeled as a duplicate-free list). -/
def reverse_bfs : Nat → FileSystem → CargoRepository → List (String × Nat) →
    List String → List String → Depth → List String × CargoRepository × Bool
  | 0, _, repo, _, _, reverse_deps, _ => (reverse_deps, repo, false)
  | fuel + 1, fs, repo, queue, visited, reverse_deps, max_depth =>
    match queue with
    | [] => (reverse_deps, repo, true)
    | (current_pkg, depth) :: rest =>
      if depthReached depth max_depth || current_pkg ∈ visited then
        reverse_bfs fuel fs repo rest visited reverse_deps max_depth
      else
        let visited' := visited ++ [current_pkg]
        let r := CargoRepository.get_reverse_dependencies fs repo current_pkg
        let state := r.1.foldl
          (fun (acc : List (String × Nat) × List String) dependent =>
            if dependent ∈ visited' then acc
            else (acc.1 ++ [(dependent, depth + 1)], setAdd acc.2 dependent))
          (rest, reverse_deps)
        reverse_bfs fuel fs r.2.1 state.1 visited' state.2 max_depth

/-- `DependencyGraph.get_reverse_dependencies`: run the breadth-first
loop from `(package, 0)` with empty visited and result sets.  Python
returns `list(reverse_deps)`; the set is modeled as the duplicate-free
list in insertion order. -/
def DependencyGraph.get_reverse_dependencies (fuel : Nat) (fs : FileSystem)
    (repo : CargoRepository) (package : String) (max_depth : Depth) :
    List String × CargoRepository × Bool :=
  reverse_bfs fuel fs repo [(package, 0)] [] [] max_depth

/-! ## `DependencyGraph.save_graph_image`

The claims about the render step concern only its exit paths, so the
embedding reduces the file-system effects to one flag (does the
intermediate `.dot` temporary file currently exist?) plus the printed
diagnostics, and takes the outcome of the external renderer as a
parameter. -/

/-- Outcome of the `subprocess.run(['dot', ...])` call: the tool may be
absent (`FileNotFoundError`) or run to completion with an exit code and
captured stderr. -/
inductive RendererOutcome where
  | toolMissing
  | ran (returncode : Nat) (stderr : String)
deriving Repr, DecidableEq

/-- Observable state of `save_graph_image`: whether the temporary
graph-description file exists, and the messages printed so far. -/
structure RenderState where
  tempFileExists : Bool
  messages : List String
deriving Repr, DecidableEq

/-- Exceptions relevant to the `try` block of `save_graph_image`. -/
inductive PyError where
  | fileNotFound
deriving Repr, DecidableEq

/-- The body of the `try` block of `save_graph_image`: create the
temporary file (`delete=False`), run the renderer (which raises
`FileNotFoundError` when the tool is absent), unlink the temporary file,
then branch on the exit code.  An error carries the state at the moment
the exception was raised. -/
def save_graph_image_try (renderer : RendererOutcome) (s : RenderState) :
    Except (PyError × RenderState) (Bool × RenderState) :=
  let s := { s with tempFileExists := true }
  match renderer with
  | .toolMissing => .error (.fileNotFound, s)
  | .ran returncode stderr =>
    let s := { s with tempFileExists := false }
    if returncode == 0 then
      .ok (true, { s with messages := s.messages ++ ["Изображение графа сохранено в файл"] })
    else
      .ok (false, { s with messages := s.messages ++ ["Ошибка генерации изображения: " ++ stderr] })

/-- `DependencyGraph.save_graph_image`: the `except FileNotFoundError`
handler prints a diagnostic and returns `False`; no exception escapes. -/
def save_graph_image (renderer : RendererOutcome) (s : RenderState) : Bool × RenderState :=
  match save_graph_image_try renderer s with
  | .ok r => r
  | .error (.fileNotFound, s) =>
    (false, { s with messages := s.messages ++ ["Ошибка: Graphviz не установлен."] })

/-! ## A finite universe of names bounding the traversal

The traversal only ever recurses into names returned by
`get_package_dependencies`, and every such name comes from the demo
table, from the backing file, or from a dependency-cache entry.  The
following definitions collect those names into one computable list, which
yields an explicit fuel bound sufficient for the traversal to finish. -/

/-- All dependency names any record of a backing file can produce. -/
def fileAllDeps : FileContent → List String
  | none => []
  | some lines =>
    (lines.map (fun line =>
      match splitLine line with
      | .record _ _ rhs => cleanDeps rhs
      | _ => [])).flatten

/-- All dependency names in the demo table. -/
def demoAllDeps : List String :=
  (demo_dependencies.map (fun p => p.2)).flatten

/-- All dependency names stored in a repository's forward cache. -/
def cacheAllDeps (repo : CargoRepository) : List String :=
  (repo.dependency_cache.map (fun p => p.2)).flatten

/-- The backing file a repository with URL `u` reads, if any. -/
def sourceFileUrl (fs : FileSystem) (u : String) : FileContent :=
  if pyStartsWith u "file://" then fs (pyDrop u 7) else none

/-- Invariant tying a repository to a name universe `U`: its URL is `u`,
and every name the dependency lookup can return lies in `U`. -/
def UrlBounded (U : List String) (fs : FileSystem) (u : String) (repo : CargoRepository) : Prop :=
  repo.repo_url = u ∧
  (∀ p ∈ repo.dependency_cache, ∀ x ∈ p.2, x ∈ U) ∧
  (∀ x ∈ fileAllDeps (sourceFileUrl fs u), x ∈ U) ∧
  (∀ x ∈ demoAllDeps, x ∈ U)

/-- The universe of names reachable by a traversal rooted at `root`. -/
def buildUniverse (fs : FileSystem) (repo : CargoRepository) (root : String) : List String :=
  root :: (cacheAllDeps repo ++ fileAllDeps (sourceFileUrl fs repo.repo_url) ++ demoAllDeps)

/-- A fuel amount sufficient for the traversal to run to completion. -/
def buildBound (fs : FileSystem) (repo : CargoRepository) (root : String) : Nat :=
  (buildUniverse fs repo root).length + 1

/-! ## Concrete backing sources used by the testable properties -/

/-- Backing file for the depth-limit property: the chain A, B, C, D. -/
def chainFile : List String := ["A -> B", "B -> C", "C -> D"]

/-- Backing file for the cycle property: A and B depend on each other. -/
def cycFile : List String := ["A -> B", "B -> A"]

/-- Backing file for the exclusion property: the chain A, B, C. -/
def chain3File : List String := ["A -> B", "B -> C"]

/-- Backing file with a malformed record (two version separators in the
header) before a well-formed one. -/
def malFile : List String := ["x@1@2 -> y", "a -> b"]

/-- Backing file for the reverse-closure property: X and Y depend on
each other. -/
def revFile : List String := ["X -> Y", "Y -> X"]

/-- A file system exposing exactly one file, `repo.txt`. -/
def singleFileFs (content : List String) : FileSystem :=
  fun p => if p == "repo.txt" then some content else none

/-- A fresh repository pointed at `repo.txt`. -/
def repoTest : CargoRepository := CargoRepository.init "file://repo.txt"

/-- Whether one raw line is the record `_parse_test_file` is looking for:
a well-formed header whose name equals the query and whose version
matches (an unpinned query matches any record version). -/
def lineMatches (line package version : String) : Bool :=
  match splitLine line with
  | .record pkg_name pkg_ver _ =>
    pkg_name == package && (pyIsEmpty version || pkg_ver == version)
  | _ => false

/-! ## Helper lemmas about the container model -/

theorem dictLookup_dictSet_self (m : Dict) (k : String) (v : List String) :
    dictLookup (dictSet m k v) k = some v := by
  induction m with
  | nil => simp [dictSet, dictLookup]
  | cons p rest ih =>
    obtain ⟨k', v'⟩ := p
    by_cases h : (k' == k) = true
    · simp [dictSet, dictLookup, h]
    · simp only [dictSet, dictLookup, h, Bool.false_eq_true, if_false, if_neg]
      exact ih

theorem dictLookup_exists_mem (m : Dict) (k : String) (v : List String)
    (h : dictLookup m k = some v) : ∃ p, p ∈ m ∧ p.2 = v := by
  induction m with
  | nil => simp [dictLookup] at h
  | cons p rest ih =>
    obtain ⟨k', v'⟩ := p
    by_cases hk : (k' == k) = true
    · rw [dictLookup, if_pos hk] at h
      exact ⟨(k', v'), by simp, Option.some.inj h⟩
    · rw [dictLookup, if_neg hk] at h
      obtain ⟨q, hq, hv⟩ := ih h
      exact ⟨q, by simp [hq], hv⟩

theorem mem_dictSet (m : Dict) (k : String) (v : List String) (p : String × List String)
    (hp : p ∈ dictSet m k v) : p.2 = v ∨ p ∈ m := by
  induction m with
  | nil => simp [dictSet] at hp; simp [hp]
  | cons q rest ih =>
    obtain ⟨k', v'⟩ := q
    by_cases hk : (k' == k) = true
    · rw [dictSet, if_pos hk] at hp
      rcases List.mem_cons.mp hp with h | h
      · left; simp [h]
      · right; simp [h]
    · rw [dictSet, if_neg hk] at hp
      rcases List.mem_cons.mp hp with h | h
      · right; simp [h]
      · rcases ih h with h' | h'
        · left; exact h'
        · right; simp [h']

theorem nodup_length_le {l l' : List String} (h : l.Nodup) (hs : l ⊆ l') :
    l.length ≤ l'.length := by
  have h1 : l.toFinset.card = l.length := List.toFinset_card_of_nodup h
  have h2 : l.toFinset ⊆ l'.toFinset := by
    intro x hx
    simp only [List.mem_toFinset] at hx ⊢
    exact hs hx
  have h3 := Finset.card_le_card h2
  have h4 := l'.toFinset_card_le
  omega

theorem not_mem_setAdd {s : List String} {x y : String} (hx : x ∉ s) (hxy : x ≠ y) :
    x ∉ setAdd s y := by
  unfold setAdd
  split
  · exact hx
  · intro h
    rcases List.mem_append.mp h with h | h
    · exact hx h
    · exact hxy (List.mem_singleton.mp h)

/-! ## Claim C1 -/

/-- Claim C1 as stated is false at the chain A, B, C, D with maximum
depth 2: the load order is not the claimed `["A", "B", "C"]` (the code
refuses to visit a node whose depth already equals the bound, so the run
stops after visiting A and B). -/
theorem C1_counterexample :
    (build_graph_bfs_recursive 10 (singleFileFs chainFile) repoTest DependencyGraph.init
      "A" "" (some 2) "" 0 []).2.1.load_order ≠ ["A", "B", "C"] := by
  decide

/-- Claim C1 (amended): on the chain A, B, C, D with maximum depth 2 the
load order is `["A", "B"]`; C appears as an edge target of B but is never
itself visited or expanded, and D does not appear at all.  In general a
node whose depth has reached the configured maximum is neither visited
nor expanded: the call returns with all traversal state unchanged. -/
theorem C1_depth_limiting :
    ((build_graph_bfs_recursive 10 (singleFileFs chainFile) repoTest DependencyGraph.init
        "A" "" (some 2) "" 0 []).2.1.load_order = ["A", "B"]) ∧
    ((build_graph_bfs_recursive 10 (singleFileFs chainFile) repoTest DependencyGraph.init
        "A" "" (some 2) "" 0 []).2.1.graph = [("A", ["B"]), ("B", ["C"])]) ∧
    ((build_graph_bfs_recursive 10 (singleFileFs chainFile) repoTest DependencyGraph.init
        "A" "" (some 2) "" 0 []).2.2 = true) ∧
    (∀ fuel fs repo g pkg ver md ex d path, depthReached d md = true →
      build_graph_bfs_recursive (fuel + 1) fs repo g pkg ver md ex d path = (repo, g, true)) := by
  refine ⟨by decide, by decide, by decide, ?_⟩
  intro fuel fs repo g pkg ver md ex d path h
  simp [build_graph_bfs_recursive, h]

/-- Witness for the hypotheses of `C1_depth_limiting`: a node entered at
depth 3 against a maximum of 1 leaves the state untouched. -/
theorem C1_depth_limiting_witness :
    build_graph_bfs_recursive 5 (singleFileFs chainFile) repoTest DependencyGraph.init
      "Q" "" (some 1) "" 3 [] = (repoTest, DependencyGraph.init, true) :=
  C1_depth_limiting.2.2.2 4 (singleFileFs chainFile) repoTest DependencyGraph.init
    "Q" "" (some 1) "" 3 [] (by decide)

/-! ## Claim C2 -/

/-- Claim C2: on records A depends on B and B depends on A, traversing
from A with no depth limit records exactly the one cycle
`["A", "B", "A"]` and both edges.  In general, a node already on the
current root-to-here path only records a cycle (the path suffix from its
first occurrence, closed by the node itself) and stops, while a node not
on the current path that is already in the visited set is skipped with no
state change at all. -/
theorem C2_cycle_detection :
    ((build_graph_bfs_recursive 10 (singleFileFs cycFile) repoTest DependencyGraph.init
        "A" "" none "" 0 []).2.1.cycles = [["A", "B", "A"]]) ∧
    ((build_graph_bfs_recursive 10 (singleFileFs cycFile) repoTest DependencyGraph.init
        "A" "" none "" 0 []).2.1.graph = [("A", ["B"]), ("B", ["A"])]) ∧
    ((build_graph_bfs_recursive 10 (singleFileFs cycFile) repoTest DependencyGraph.init
        "A" "" none "" 0 []).2.2 = true) ∧
    (∀ fuel fs repo g pkg ver md ex d path, depthReached d md = false → pkg ∈ path →
      build_graph_bfs_recursive (fuel + 1) fs repo g pkg ver md ex d path =
        (repo, { g with cycles := g.cycles ++ [path.drop (pyIndex pkg path) ++ [pkg]] }, true)) ∧
    (∀ fuel fs repo g pkg ver md ex d path, depthReached d md = false → pkg ∉ path →
      (!pyIsEmpty ex && containsSub pkg ex) = false → pkg ∈ g.visited →
      build_graph_bfs_recursive (fuel + 1) fs repo g pkg ver md ex d path = (repo, g, true)) := by
  refine ⟨by decide, by decide, by decide, ?_, ?_⟩
  · intro fuel fs repo g pkg ver md ex d path h₁ h₂
    simp [build_graph_bfs_recursive, h₁, h₂]
  · intro fuel fs repo g pkg ver md ex d path h₁ h₂ h₃ h₄
    simp [build_graph_bfs_recursive, h₁, h₂, h₃, h₄]

/-- Witness for the hypotheses of `C2_cycle_detection`: entering A with A
already on the path records the one-step cycle and nothing else. -/
theorem C2_cycle_detection_witness :
    build_graph_bfs_recursive 1 (singleFileFs cycFile) repoTest DependencyGraph.init
      "A" "" none "" 1 ["A"] =
      (repoTest, { DependencyGraph.init with cycles := [["A", "A"]] }, true) :=
  (C2_cycle_detection.2.2.2.1 0 (singleFileFs cycFile) repoTest DependencyGraph.init
    "A" "" none "" 1 ["A"] (by decide) (by decide)).trans (by decide)

/-! ## Claim C3 -/

/-- Claim C3 as stated is false: in a backing file whose first line is
the unparseable `x@1@2 -> y` (its header has two version separators, so
the Python tuple unpacking raises) followed by the well-formed matching
record `a -> b`, the lookup for `a` returns `[]` — the exception aborts
the whole scan — even though the same lookup on the file without the
malformed line returns `["b"]`. -/
theorem C3_counterexample :
    parse_test_file (some malFile) "a" "" = [] ∧
    parse_test_file (some ["a -> b"]) "a" "" = ["b"] := by
  decide

/-- Claim C3 (amended): a blank line or a line without the arrow
separator is silently skipped and the scan continues, in both the forward
lookup and the reverse-index build; but a line with the arrow whose
header has two or more version separators raises, and the caught
exception aborts the remainder of the scan: the forward lookup returns
`[]` and the reverse-index build keeps only the entries inserted before
the bad line. -/
theorem C3_malformed_handling :
    (∀ line lines package version,
      (pyIsEmpty (pyStrip line) || !containsSub (pyStrip line) "->") = true →
      parse_test_file (some (line :: lines)) package version =
        parse_test_file (some lines) package version) ∧
    (∀ line lines cache,
      (pyIsEmpty (pyStrip line) || !containsSub (pyStrip line) "->") = true →
      build_reverse_cache_from_file (some (line :: lines)) cache =
        build_reverse_cache_from_file (some lines) cache) ∧
    (∀ line lines package version, splitLine line = .err →
      parse_test_file (some (line :: lines)) package version = []) ∧
    (∀ line lines cache, splitLine line = .err →
      build_reverse_cache_from_file (some (line :: lines)) cache = cache) := by
  have hskip : ∀ line : String,
      (pyIsEmpty (pyStrip line) || !containsSub (pyStrip line) "->") = true →
      splitLine line = .skip := by
    intro line h
    simp [splitLine, h]
  refine ⟨?_, ?_, ?_, ?_⟩
  · intro line lines package version h
    simp [parse_test_file, parseLoop, hskip line h]
  · intro line lines cache h
    simp [build_reverse_cache_from_file, reverseLoop, hskip line h]
  · intro line lines package version h
    simp [parse_test_file, parseLoop, h]
  · intro line lines cache h
    simp [build_reverse_cache_from_file, reverseLoop, h]

/-- Witness for the hypotheses of `C3_malformed_handling`: a line of
bare whitespace ahead of `a -> b` changes nothing, and the malformed
header `x@1@2 -> y` ahead of the same record aborts to `[]`. -/
theorem C3_malformed_handling_witness :
    (parse_test_file (some ("  " :: ["a -> b"])) "a" "" =
      parse_test_file (some ["a -> b"]) "a" "") ∧
    parse_test_file (some ("x@1@2 -> y" :: ["a -> b"])) "a" "" = [] :=
  ⟨C3_malformed_handling.1 "  " ["a -> b"] "a" "" (by decide),
   C3_malformed_handling.2.2.1 "x@1@2 -> y" ["a -> b"] "a" "" (by decide)⟩

/-! ## Claim C4 -/

/-- Claim C4 as stated is false: when the renderer tool is absent,
`subprocess.run` raises `FileNotFoundError` before the `os.unlink` line
runs, so the intermediate temporary graph-description file is left
behind on that exit path (the call still returns failure rather than
raising). -/
theorem C4_counterexample :
    ((save_graph_image .toolMissing { tempFileExists := false, messages := [] }).2.tempFileExists
      = true) ∧
    (save_graph_image .toolMissing { tempFileExists := false, messages := [] }).1 = false := by
  decide

/-- Claim C4 (amended): the render step removes the temporary file on the
success path and on the renderer-nonzero-exit path, returning success
and failure-with-diagnostic respectively; but on the renderer-absent path
the temporary file is leaked, while the call still returns failure with a
diagnostic instead of raising. -/
theorem C4_render_cleanup :
    (∀ stderr s, save_graph_image (.ran 0 stderr) s =
      (true, { tempFileExists := false,
               messages := s.messages ++ ["Изображение графа сохранено в файл"] })) ∧
    (∀ code stderr s, save_graph_image (.ran (code + 1) stderr) s =
      (false, { tempFileExists := false,
                messages := s.messages ++ ["Ошибка генерации изображения: " ++ stderr] })) ∧
    (∀ s, save_graph_image .toolMissing s =
      (false, { tempFileExists := true,
                messages := s.messages ++ ["Ошибка: Graphviz не установлен."] })) :=
  ⟨fun _ _ => rfl, fun _ _ _ => rfl, fun _ => rfl⟩

/-! ## Claim C5 -/

/-- Claim C5: on the chain A, B, C with exclusion substring "B", the
graph records the edge from A to B (appended by the parent loop before
the child call) but not the edge from B to C, and the load order is
exactly `["A"]`.  In general a node whose name contains the non-empty
exclusion substring returns at entry with all traversal state unchanged:
it is never visited or expanded. -/
theorem C5_exclusion :
    ((build_graph_bfs_recursive 10 (singleFileFs chain3File) repoTest DependencyGraph.init
        "A" "" none "B" 0 []).2.1.graph = [("A", ["B"])]) ∧
    ((build_graph_bfs_recursive 10 (singleFileFs chain3File) repoTest DependencyGraph.init
        "A" "" none "B" 0 []).2.1.load_order = ["A"]) ∧
    ((build_graph_bfs_recursive 10 (singleFileFs chain3File) repoTest DependencyGraph.init
        "A" "" none "B" 0 []).2.2 = true) ∧
    (∀ fuel fs repo g pkg ver md ex d path, depthReached d md = false → pkg ∉ path →
      (!pyIsEmpty ex && containsSub pkg ex) = true →
      build_graph_bfs_recursive (fuel + 1) fs repo g pkg ver md ex d path = (repo, g, true)) := by
  refine ⟨by decide, by decide, by decide, ?_⟩
  intro fuel fs repo g pkg ver md ex d path h₁ h₂ h₃
  simp [build_graph_bfs_recursive, h₁, h₂, h₃]

/-- Witness for the hypotheses of `C5_exclusion`: entering the excluded
node B changes nothing. -/
theorem C5_exclusion_witness :
    build_graph_bfs_recursive 1 (singleFileFs chain3File) repoTest DependencyGraph.init
      "B" "" none "B" 1 ["A"] = (repoTest, DependencyGraph.init, true) :=
  C5_exclusion.2.2.2 0 (singleFileFs chain3File) repoTest DependencyGraph.init
    "B" "" none "B" 1 ["A"] (by decide) (by decide) (by decide)

/-! ## Fuel stability and the never-contains-the-start invariant of the
reverse breadth-first loop -/

theorem reverse_bfs_mono : ∀ (fuel : Nat) (fs : FileSystem) (repo : CargoRepository)
    (queue : List (String × Nat)) (visited reverse_deps : List String) (md : Depth),
    (reverse_bfs fuel fs repo queue visited reverse_deps md).2.2 = true →
    reverse_bfs (fuel + 1) fs repo queue visited reverse_deps md =
      reverse_bfs fuel fs repo queue visited reverse_deps md := by
  intro fuel
  induction fuel with
  | zero =>
    intro fs repo queue visited reverse_deps md h
    simp [reverse_bfs] at h
  | succ fuel ih =>
    intro fs repo queue visited reverse_deps md h
    cases queue with
    | nil => rfl
    | cons q rest =>
      obtain ⟨pkg, depth⟩ := q
      simp only [reverse_bfs] at h ⊢
      split_ifs at h ⊢ with hc
      · exact ih fs repo rest visited reverse_deps md h
      · exact ih fs _ _ _ _ md h

theorem reverse_bfs_stable {f f' : Nat} (hle : f ≤ f') (fs : FileSystem)
    (repo : CargoRepository) (queue : List (String × Nat))
    (visited reverse_deps : List String) (md : Depth)
    (h : (reverse_bfs f fs repo queue visited reverse_deps md).2.2 = true) :
    reverse_bfs f' fs repo queue visited reverse_deps md =
      reverse_bfs f fs repo queue visited reverse_deps md := by
  induction f', hle using Nat.le_induction with
  | base => rfl
  | succ f' hle ih =>
    have h' : (reverse_bfs f' fs repo queue visited reverse_deps md).2.2 = true := by
      rw [ih]; exact h
    rw [reverse_bfs_mono f' fs repo queue visited reverse_deps md h', ih]

theorem reverse_fold_not_mem (visited' : List String) (depth : Nat) (s : String)
    (hs : s ∈ visited') :
    ∀ (deps : List String) (q : List (String × Nat)) (r : List String), s ∉ r →
    s ∉ (deps.foldl (fun (acc : List (String × Nat) × List String) dependent =>
          if dependent ∈ visited' then acc
          else (acc.1 ++ [(dependent, depth + 1)], setAdd acc.2 dependent)) (q, r)).2 := by
  intro deps
  induction deps with
  | nil => intro q r hr; exact hr
  | cons dep rest ih =>
    intro q r hr
    simp only [List.foldl_cons]
    by_cases hd : dep ∈ visited'
    · rw [if_pos hd]
      exact ih q r hr
    · rw [if_neg hd]
      exact ih _ _ (not_mem_setAdd hr (fun he => hd (he ▸ hs)))

theorem reverse_bfs_not_start : ∀ (fuel : Nat) (fs : FileSystem) (repo : CargoRepository)
    (queue : List (String × Nat)) (visited reverse_deps : List String) (md : Depth)
    (s : String),
    s ∉ reverse_deps →
    (s ∈ visited ∨ (visited = [] ∧ ∀ q ∈ queue, q.1 = s)) →
    s ∉ (reverse_bfs fuel fs repo queue visited reverse_deps md).1 := by
  intro fuel
  induction fuel with
  | zero =>
    intro fs repo queue visited reverse_deps md s hr _
    exact hr
  | succ fuel ih =>
    intro fs repo queue visited reverse_deps md s hr hinv
    cases queue with
    | nil => exact hr
    | cons q rest =>
      obtain ⟨pkg, depth⟩ := q
      simp only [reverse_bfs]
      split
      · refine ih _ _ _ _ _ _ _ hr ?_
        rcases hinv with h | ⟨hv, hq⟩
        · exact Or.inl h
        · exact Or.inr ⟨hv, fun p hp => hq p (List.mem_cons_of_mem _ hp)⟩
      · have hs' : s ∈ visited ++ [pkg] := by
          rcases hinv with h | ⟨hv, hq⟩
          · exact List.mem_append_left _ h
          · have : pkg = s := hq (pkg, depth) (List.mem_cons_self _ _)
            rw [hv, this]
            simp
        refine ih _ _ _ _ _ _ _ ?_ (Or.inl hs')
        exact reverse_fold_not_mem (visited ++ [pkg]) depth s hs' _ rest reverse_deps hr

/-! ## Claim C7 -/

/-- Claim C7: a second call to the dependency lookup with the same
name and version returns the same list and the same repository state and
performs no backing-data access (the access counter of the second call is
0, against 1 or 0 for the first).  A package with no matching record in a
file-backed source, and a package absent from the demo table, yield the
empty list rather than an error. -/
theorem C7_memoization :
    (∀ fs repo package version,
      ((get_package_dependencies fs
          (get_package_dependencies fs repo package version).2.1 package version).1 =
        (get_package_dependencies fs repo package version).1) ∧
      ((get_package_dependencies fs
          (get_package_dependencies fs repo package version).2.1 package version).2.1 =
        (get_package_dependencies fs repo package version).2.1) ∧
      ((get_package_dependencies fs
          (get_package_dependencies fs repo package version).2.1 package version).2.2 = 0)) ∧
    (∀ lines package version,
      (∀ line ∈ lines, lineMatches line package version = false) →
      parse_test_file (some lines) package version = []) ∧
    (∀ package, dictLookup demo_dependencies package = none →
      parse_cargo_dependencies package = []) := by
  refine ⟨?_, ?_, ?_⟩
  · intro fs repo package version
    unfold get_package_dependencies
    cases h : dictLookup repo.dependency_cache (cacheKey package version) with
    | some deps => simp [h]
    | none => simp [h, dictLookup_dictSet_self]
  · intro lines package version h
    induction lines with
    | nil => rfl
    | cons line rest ih =>
      have h1 : lineMatches line package version = false := h line (by simp)
      have h2 : ∀ l ∈ rest, lineMatches l package version = false :=
        fun l hl => h l (by simp [hl])
      cases hsl : splitLine line with
      | skip => simpa [parse_test_file, parseLoop, hsl] using ih h2
      | err => simp [parse_test_file, parseLoop, hsl]
      | record n v rhs =>
        rw [lineMatches, hsl] at h1
        have h1' : (n == package && (pyIsEmpty version || v == version)) = false := h1
        simp only [parse_test_file, parseLoop, hsl]
        rw [h1']
        simpa [parse_test_file] using ih h2
  · intro package h
    simp [parse_cargo_dependencies, h]

/-- Witness for the hypotheses of `C7_memoization`: in the chain file no
record matches the name `zzz`, and `zzz` is not in the demo table, so
both lookups return the empty list. -/
theorem C7_memoization_witness :
    parse_test_file (some chainFile) "zzz" "" = [] ∧
    parse_cargo_dependencies "zzz" = [] :=
  ⟨C7_memoization.2.1 chainFile "zzz" "" (by decide),
   C7_memoization.2.2 "zzz" (by decide)⟩

/-! ## Claim C9 -/

/-- Claim C9 (implicit): the first result for a (name, version) pair is
cached even when it is the empty list caused by an unreadable backing
file: the first call performs one backing access and returns `[]`, and
any later call with the same pair — even against a file system where the
file has become readable — is a cache hit returning the same `[]` with
no backing access. -/
theorem C9_failure_caching :
    ∀ (fs₁ fs₂ : FileSystem) (repo : CargoRepository) (package version : String),
      dictLookup repo.dependency_cache (cacheKey package version) = none →
      pyStartsWith repo.repo_url "file://" = true →
      fs₁ repo.filePath = none →
      ((get_package_dependencies fs₁ repo package version).1 = [] ∧
       (get_package_dependencies fs₁ repo package version).2.2 = 1 ∧
       (get_package_dependencies fs₂ (get_package_dependencies fs₁ repo package version).2.1
           package version) =
         ([], (get_package_dependencies fs₁ repo package version).2.1, 0)) := by
  intro fs₁ fs₂ repo package version hmiss hurl hfile
  have hdeps : (if pyStartsWith repo.repo_url "file://" then
      parse_test_file (fs₁ repo.filePath) package version
    else parse_cargo_dependencies package) = [] := by
    rw [if_pos hurl, hfile]
    rfl
  constructor
  · simp [get_package_dependencies, hmiss, hdeps]
  constructor
  · simp [get_package_dependencies, hmiss]
  · conv_rhs => rw [get_package_dependencies]
    conv_lhs => rw [get_package_dependencies]
    simp only [hmiss]
    simp [get_package_dependencies, hmiss, hdeps, dictLookup_dictSet_self]

/-- Witness for the hypotheses of `C9_failure_caching`: a fresh
repository first queried against an empty file system caches `[]` for A,
and the repeat query against a file system where `repo.txt` now exists
still returns the cached `[]` without reading it. -/
theorem C9_failure_caching_witness :
    ((get_package_dependencies (fun _ => none) repoTest "A" "").1 = [] ∧
     (get_package_dependencies (fun _ => none) repoTest "A" "").2.2 = 1 ∧
     (get_package_dependencies (singleFileFs chainFile)
         (get_package_dependencies (fun _ => none) repoTest "A" "").2.1 "A" "") =
       ([], (get_package_dependencies (fun _ => none) repoTest "A" "").2.1, 0)) :=
  C9_failure_caching (fun _ => none) (singleFileFs chainFile) repoTest "A" ""
    (by decide) (by decide) rfl

/-! ## Claim C10 -/

/-- Claim C10 (implicit): the reverse-dependents query performs the full
backing-source scan exactly when the reverse cache is entirely empty at
query time and the source is file-backed; a package already in the cache
returns its cached list with no scan; when the cache is non-empty, or the
source is the in-memory demo table, a package absent from the cache
returns the empty list with no scan. -/
theorem C10_reverse_index_trigger :
    ∀ (fs : FileSystem) (repo : CargoRepository) (package : String),
      ((CargoRepository.get_reverse_dependencies fs repo package).2.2 ≠ 0 ↔
        (repo.reverse_dependency_cache = [] ∧ pyStartsWith repo.repo_url "file://" = true)) ∧
      (∀ l, dictLookup repo.reverse_dependency_cache package = some l →
        (CargoRepository.get_reverse_dependencies fs repo package).1 = l ∧
        (CargoRepository.get_reverse_dependencies fs repo package).2.2 = 0) ∧
      (repo.reverse_dependency_cache ≠ [] →
        dictLookup repo.reverse_dependency_cache package = none →
        CargoRepository.get_reverse_dependencies fs repo package = ([], repo, 0)) ∧
      (pyStartsWith repo.repo_url "file://" = false →
        dictLookup repo.reverse_dependency_cache package = none →
        (CargoRepository.get_reverse_dependencies fs repo package).1 = [] ∧
        (CargoRepository.get_reverse_dependencies fs repo package).2.2 = 0) := by
  intro fs repo package
  refine ⟨?_, ?_, ?_, ?_⟩
  · cases h : dictLookup repo.reverse_dependency_cache package with
    | some l =>
      have hne : repo.reverse_dependency_cache ≠ [] := by
        intro he
        rw [he] at h
        simp [dictLookup] at h
      simp [CargoRepository.get_reverse_dependencies, h, hne]
    | none =>
      cases he : repo.reverse_dependency_cache.isEmpty with
      | true =>
        have he' : repo.reverse_dependency_cache = [] := List.isEmpty_iff.mp he
        cases hu : pyStartsWith repo.repo_url "file://" with
        | true =>
          simp [CargoRepository.get_reverse_dependencies, h, he,
            build_reverse_dependency_cache, hu, he', dictLookup]
        | false =>
          simp [CargoRepository.get_reverse_dependencies, h, he,
            build_reverse_dependency_cache, hu, he', dictLookup]
      | false =>
        have he' : repo.reverse_dependency_cache ≠ [] := by
          intro hc
          rw [hc] at he
          simp at he
        simp [CargoRepository.get_reverse_dependencies, h, he, he']
  · intro l h
    simp [CargoRepository.get_reverse_dependencies, h]
  · intro hne h
    have he : repo.reverse_dependency_cache.isEmpty = false := by
      cases hc : repo.reverse_dependency_cache.isEmpty with
      | true => exact absurd (List.isEmpty_iff.mp hc) hne
      | false => rfl
    simp [CargoRepository.get_reverse_dependencies, h, he]
  · intro hu h
    cases he : repo.reverse_dependency_cache.isEmpty with
    | true =>
      simp [CargoRepository.get_reverse_dependencies, h, he,
        build_reverse_dependency_cache, hu]
    | false =>
      simp [CargoRepository.get_reverse_dependencies, h, he]

/-- Witness for the hypotheses of `C10_reverse_index_trigger`: a fresh
file-backed repository (empty reverse cache) does scan, and the query
against the demo-table repository for an uncached package returns `[]`
without scanning. -/
theorem C10_reverse_index_trigger_witness :
    (CargoRepository.get_reverse_dependencies (singleFileFs revFile) repoTest "X").2.2 ≠ 0 ∧
    ((CargoRepository.get_reverse_dependencies (singleFileFs revFile)
        (CargoRepository.init "https://crates.io") "serde_json").1 = [] ∧
     (CargoRepository.get_reverse_dependencies (singleFileFs revFile)
        (CargoRepository.init "https://crates.io") "serde_json").2.2 = 0) :=
  ⟨((C10_reverse_index_trigger (singleFileFs revFile) repoTest "X").1).mpr
      ⟨rfl, by decide⟩,
   (C10_reverse_index_trigger (singleFileFs revFile)
      (CargoRepository.init "https://crates.io") "serde_json").2.2.2 (by decide) (by decide)⟩

/-! ## Claim C8 -/

/-- Claim C8: for the reverse cycle X depends on Y, Y depends on X, the
reverse closure of X with no depth bound terminates (every fuel from 3 on
gives a completed run with the same answer) and returns exactly the set
containing Y.  In general the returned set never contains the starting
name, for any fuel, file system, repository state and depth bound. -/
theorem C8_reverse_closure :
    (∀ fuel, 3 ≤ fuel →
      ((DependencyGraph.get_reverse_dependencies fuel (singleFileFs revFile) repoTest
          "X" none).1 = ["Y"] ∧
       (DependencyGraph.get_reverse_dependencies fuel (singleFileFs revFile) repoTest
          "X" none).2.2 = true)) ∧
    (∀ fuel fs repo package md,
      package ∉ (DependencyGraph.get_reverse_dependencies fuel fs repo package md).1) := by
  constructor
  · intro fuel hf
    have hstable := reverse_bfs_stable hf (singleFileFs revFile) repoTest [("X", 0)] [] [] none
      (by decide)
    constructor
    · show (reverse_bfs fuel (singleFileFs revFile) repoTest [("X", 0)] [] [] none).1 = ["Y"]
      rw [hstable]
      decide
    · show (reverse_bfs fuel (singleFileFs revFile) repoTest [("X", 0)] [] [] none).2.2 = true
      rw [hstable]
      decide
  · intro fuel fs repo package md
    exact reverse_bfs_not_start fuel fs repo [(package, 0)] [] [] md package
      (by simp) (Or.inr ⟨rfl, by simp⟩)

/-- Witness for the hypotheses of `C8_reverse_closure`: at fuel 3 the
reverse closure of X is exactly the singleton Y. -/
theorem C8_reverse_closure_witness :
    (DependencyGraph.get_reverse_dependencies 3 (singleFileFs revFile) repoTest "X" none).1
      = ["Y"] :=
  (C8_reverse_closure.1 3 (by decide)).1

/-! ## Every dependency list the lookup can return lies in the universe -/

theorem parseLoop_subset : ∀ (lines : List String) (package version : String)
    (deps : List String), parseLoop package version lines = .ok (some deps) →
    ∀ x ∈ deps, x ∈ fileAllDeps (some lines) := by
  intro lines
  induction lines with
  | nil =>
    intro package version deps h
    simp [parseLoop] at h
  | cons line rest ih =>
    intro package version deps h x hx
    have hstep : fileAllDeps (some (line :: rest)) =
        (match splitLine line with
          | .record _ _ rhs => cleanDeps rhs
          | _ => []) ++ fileAllDeps (some rest) := by
      simp [fileAllDeps]
    rw [hstep]
    cases hsl : splitLine line with
    | skip =>
      rw [parseLoop, hsl] at h
      exact List.mem_append_right _ (ih package version deps h x hx)
    | err =>
      rw [parseLoop, hsl] at h
      simp at h
    | record n v rhs =>
      rw [parseLoop, hsl] at h
      have h' : (if (n == package && (pyIsEmpty version || v == version)) = true
          then (Except.ok (some (cleanDeps rhs)) : Except Unit (Option (List String)))
          else parseLoop package version rest) = Except.ok (some deps) := h
      show x ∈ cleanDeps rhs ++ fileAllDeps (some rest)
      by_cases hm : (n == package && (pyIsEmpty version || v == version)) = true
      · rw [if_pos hm] at h'
        have hdeps : deps = cleanDeps rhs := (Option.some.inj (Except.ok.inj h')).symm
        exact List.mem_append_left _ (hdeps ▸ hx)
      · rw [if_neg hm] at h'
        exact List.mem_append_right _ (ih package version deps h' x hx)

theorem parse_test_file_subset (file : FileContent) (package version : String) :
    ∀ x ∈ parse_test_file file package version, x ∈ fileAllDeps file := by
  intro x hx
  cases file with
  | none => simp [parse_test_file] at hx
  | some lines =>
    simp only [parse_test_file] at hx
    cases h : parseLoop package version lines with
    | error e => rw [h] at hx; simp at hx
    | ok o =>
      cases o with
      | none => rw [h] at hx; simp at hx
      | some deps =>
        rw [h] at hx
        exact parseLoop_subset lines package version deps h x hx

theorem parse_cargo_subset (package : String) :
    ∀ x ∈ parse_cargo_dependencies package, x ∈ demoAllDeps := by
  intro x hx
  unfold parse_cargo_dependencies at hx
  cases h : dictLookup demo_dependencies package with
  | none => rw [h] at hx; simp at hx
  | some v =>
    rw [h] at hx
    obtain ⟨p, hp, hv⟩ := dictLookup_exists_mem _ _ _ h
    unfold demoAllDeps
    rw [List.mem_flatten]
    refine ⟨p.2, List.mem_map_of_mem _ hp, ?_⟩
    rw [hv]
    exact hx

theorem get_package_dependencies_bounded
    (U : List String) (fs : FileSystem) (u : String) (repo : CargoRepository)
    (package version : String) (hb : UrlBounded U fs u repo) :
    (∀ x ∈ (get_package_dependencies fs repo package version).1, x ∈ U) ∧
    UrlBounded U fs u (get_package_dependencies fs repo package version).2.1 := by
  obtain ⟨hurl, hcache, hfile, hdemo⟩ := hb
  unfold get_package_dependencies
  cases h : dictLookup repo.dependency_cache (cacheKey package version) with
  | some deps =>
    simp only [h]
    refine ⟨?_, hurl, hcache, hfile, hdemo⟩
    intro x hx
    obtain ⟨p, hp, hv⟩ := dictLookup_exists_mem _ _ _ h
    refine hcache p hp x ?_
    rw [hv]
    exact hx
  | none =>
    simp only [h]
    have hdepsU : ∀ x ∈ (if pyStartsWith repo.repo_url "file://" then
        parse_test_file (fs repo.filePath) package version
      else parse_cargo_dependencies package), x ∈ U := by
      intro x hx
      by_cases hu : pyStartsWith repo.repo_url "file://" = true
      · rw [if_pos hu] at hx
        apply hfile
        have hsrc : sourceFileUrl fs u = fs repo.filePath := by
          unfold sourceFileUrl
          rw [← hurl, if_pos hu]
          rfl
        rw [hsrc]
        exact parse_test_file_subset _ package version x hx
      · rw [if_neg hu] at hx
        exact hdemo x (parse_cargo_subset package x hx)
    refine ⟨hdepsU, hurl, ?_, hfile, hdemo⟩
    intro p hp x hx
    rcases mem_dictSet _ _ _ p hp with h' | h'
    · exact hdepsU x (h' ▸ hx)
    · exact hcache p h' x hx

/-! ## Termination of the traversal: sufficiency of the computed fuel -/

theorem build_graph_complete :
    ∀ (fuel : Nat) (U : List String) (fs : FileSystem) (u : String) (repo : CargoRepository)
      (g : DependencyGraph) (pkg ver : String) (md : Depth) (ex : String) (d : Nat)
      (path : List String),
      UrlBounded U fs u repo → path.Nodup → (∀ x ∈ path, x ∈ U) → pkg ∈ U →
      U.length + 1 ≤ fuel + path.length →
      ((build_graph_bfs_recursive fuel fs repo g pkg ver md ex d path).2.2 = true ∧
       UrlBounded U fs u (build_graph_bfs_recursive fuel fs repo g pkg ver md ex d path).1) := by
  intro fuel
  induction fuel with
  | zero =>
    intro U fs u repo g pkg ver md ex d path hb hnd hsub hpkg harith
    exfalso
    have := nodup_length_le hnd hsub
    omega
  | succ fuel ih =>
    intro U fs u repo g pkg ver md ex d path hb hnd hsub hpkg harith
    rw [build_graph_bfs_recursive]
    cases h1 : depthReached d md with
    | true => exact ⟨by simp [h1], by simpa [h1] using hb⟩
    | false =>
      by_cases h2 : pkg ∈ path
      · exact ⟨by simp [h1, h2], by simpa [h1, h2] using hb⟩
      · cases h3 : (!pyIsEmpty ex && containsSub pkg ex) with
        | true => exact ⟨by simp [h1, h2, h3], by simpa [h1, h2, h3] using hb⟩
        | false =>
          by_cases h4 : pkg ∈ g.visited
          · exact ⟨by simp [h1, h2, h3, h4], by simpa [h1, h2, h3, h4] using hb⟩
          · have hnd' : (path ++ [pkg]).Nodup := by
              simp [List.nodup_append, hnd, h2]
            have hsub' : ∀ x ∈ path ++ [pkg], x ∈ U := by
              intro x hx
              rcases List.mem_append.mp hx with h | h
              · exact hsub x h
              · rw [List.mem_singleton.mp h]
                exact hpkg
            have hchildren : ∀ (deps : List String), (∀ x ∈ deps, x ∈ U) →
                ∀ (repo' : CargoRepository) (g' : DependencyGraph), UrlBounded U fs u repo' →
                ((buildChildren pkg (fun dep repo g =>
                    build_graph_bfs_recursive fuel fs repo g dep "" md ex (d + 1)
                      (path ++ [pkg])) deps repo' g').2.2 = true ∧
                 UrlBounded U fs u (buildChildren pkg (fun dep repo g =>
                    build_graph_bfs_recursive fuel fs repo g dep "" md ex (d + 1)
                      (path ++ [pkg])) deps repo' g').1) := by
              intro deps
              induction deps with
              | nil =>
                intro _ repo' g' hb'
                exact ⟨rfl, hb'⟩
              | cons dep rest ihd =>
                intro hdeps repo' g' hb'
                have hdep : dep ∈ U := hdeps dep (by simp)
                have hrest : ∀ x ∈ rest, x ∈ U := fun x hx => hdeps x (by simp [hx])
                have harith' : U.length + 1 ≤ fuel + (path ++ [pkg]).length := by
                  simp only [List.length_append, List.length_singleton]
                  omega
                have hstep := ih U fs u repo'
                  { g' with graph := ddAppend g'.graph pkg dep }
                  dep "" md ex (d + 1) (path ++ [pkg]) hb' hnd' hsub' hdep harith'
                have hrest2 := ihd hrest
                  (build_graph_bfs_recursive fuel fs repo'
                    { g' with graph := ddAppend g'.graph pkg dep }
                    dep "" md ex (d + 1) (path ++ [pkg])).1
                  (build_graph_bfs_recursive fuel fs repo'
                    { g' with graph := ddAppend g'.graph pkg dep }
                    dep "" md ex (d + 1) (path ++ [pkg])).2.1
                  hstep.2
                simp only [buildChildren]
                refine ⟨?_, hrest2.2⟩
                rw [Bool.and_eq_true]
                exact ⟨hstep.1, hrest2.1⟩
            have hlook := get_package_dependencies_bounded U fs u repo pkg ver hb
            have hmain := hchildren (get_package_dependencies fs repo pkg ver).1 hlook.1
              (get_package_dependencies fs repo pkg ver).2.1
              { g with
                visited := g.visited ++ [pkg],
                load_order := g.load_order ++ [pkg] } hlook.2
            rw [if_neg (by simp [h1]), if_neg h2, if_neg (by simp [h3]), if_neg h4]
            exact hmain

theorem buildChildren_congr (parent : String)
    (step step' : String → CargoRepository → DependencyGraph →
      CargoRepository × DependencyGraph × Bool)
    (hstep : ∀ dep repo g, (step dep repo g).2.2 = true → step' dep repo g = step dep repo g) :
    ∀ (deps : List String) (repo : CargoRepository) (g : DependencyGraph),
    (buildChildren parent step deps repo g).2.2 = true →
    buildChildren parent step' deps repo g = buildChildren parent step deps repo g := by
  intro deps
  induction deps with
  | nil => intro repo g _; rfl
  | cons dep rest ih =>
    intro repo g h
    simp only [buildChildren] at h ⊢
    rw [Bool.and_eq_true] at h
    rw [hstep dep repo _ h.1]
    rw [ih _ _ h.2]

theorem build_graph_mono : ∀ (fuel : Nat) (fs : FileSystem) (repo : CargoRepository)
    (g : DependencyGraph) (pkg ver : String) (md : Depth) (ex : String) (d : Nat)
    (path : List String),
    (build_graph_bfs_recursive fuel fs repo g pkg ver md ex d path).2.2 = true →
    build_graph_bfs_recursive (fuel + 1) fs repo g pkg ver md ex d path =
      build_graph_bfs_recursive fuel fs repo g pkg ver md ex d path := by
  intro fuel
  induction fuel with
  | zero =>
    intro fs repo g pkg ver md ex d path h
    simp [build_graph_bfs_recursive] at h
  | succ fuel ih =>
    intro fs repo g pkg ver md ex d path h
    rw [build_graph_bfs_recursive] at h
    conv_lhs => rw [build_graph_bfs_recursive]
    conv_rhs => rw [build_graph_bfs_recursive]
    cases h1 : depthReached d md with
    | true => simp [h1]
    | false =>
      by_cases h2 : pkg ∈ path
      · simp [h1, h2]
      · cases h3 : (!pyIsEmpty ex && containsSub pkg ex) with
        | true => simp [h1, h2, h3]
        | false =>
          by_cases h4 : pkg ∈ g.visited
          · simp [h1, h2, h3, h4]
          · rw [if_neg (by simp [h1]), if_neg h2, if_neg (by simp [h3]), if_neg h4]
            rw [if_neg (by simp [h1]), if_neg h2, if_neg (by simp [h3]), if_neg h4] at h ⊢
            exact buildChildren_congr pkg _ _
              (fun dep repo g hok => ih fs repo g dep "" md ex (d + 1) (path ++ [pkg]) hok)
              _ _ _ h

theorem build_graph_stable {f f' : Nat} (hle : f ≤ f') (fs : FileSystem)
    (repo : CargoRepository) (g : DependencyGraph) (pkg ver : String) (md : Depth)
    (ex : String) (d : Nat) (path : List String)
    (h : (build_graph_bfs_recursive f fs repo g pkg ver md ex d path).2.2 = true) :
    build_graph_bfs_recursive f' fs repo g pkg ver md ex d path =
      build_graph_bfs_recursive f fs repo g pkg ver md ex d path := by
  induction f', hle using Nat.le_induction with
  | base => rfl
  | succ f' hle ih =>
    have h' : (build_graph_bfs_recursive f' fs repo g pkg ver md ex d path).2.2 = true := by
      rw [ih]; exact h
    rw [build_graph_mono f' fs repo g pkg ver md ex d path h', ih]

/-! ## Claim C6 -/

/-- Claim C6: for every backing data set (file system and demo table),
every repository state, every root, every version, every depth bound
(finite or unlimited) and every exclusion substring, the traversal
terminates: the computable fuel `buildBound` — one more than the number
of names the lookup can ever return, plus the root — always yields a
completed run, and any larger fuel yields the identical result.  This
covers, in particular, a pure dependency cycle with no depth limit. -/
theorem C6_termination :
    ∀ (fs : FileSystem) (repo : CargoRepository) (g : DependencyGraph) (pkg ver : String)
      (md : Depth) (ex : String),
      ((build_graph_bfs_recursive (buildBound fs repo pkg) fs repo g pkg ver md ex 0 []).2.2
        = true) ∧
      (∀ fuel, buildBound fs repo pkg ≤ fuel →
        build_graph_bfs_recursive fuel fs repo g pkg ver md ex 0 [] =
          build_graph_bfs_recursive (buildBound fs repo pkg) fs repo g pkg ver md ex 0 []) := by
  intro fs repo g pkg ver md ex
  have hb : UrlBounded (buildUniverse fs repo pkg) fs repo.repo_url repo := by
    refine ⟨rfl, ?_, ?_, ?_⟩
    · intro p hp x hx
      have hx' : x ∈ cacheAllDeps repo := by
        unfold cacheAllDeps
        rw [List.mem_flatten]
        exact ⟨p.2, List.mem_map_of_mem _ hp, hx⟩
      unfold buildUniverse
      exact List.mem_cons_of_mem _ (List.mem_append_left _ (List.mem_append_left _ hx'))
    · intro x hx
      unfold buildUniverse
      exact List.mem_cons_of_mem _ (List.mem_append_left _ (List.mem_append_right _ hx))
    · intro x hx
      unfold buildUniverse
      exact List.mem_cons_of_mem _ (List.mem_append_right _ hx)
  have hmain := build_graph_complete (buildBound fs repo pkg) (buildUniverse fs repo pkg)
    fs repo.repo_url repo g pkg ver md ex 0 [] hb List.nodup_nil (by simp)
    (List.mem_cons_self _ _) (by unfold buildBound; simp)
  exact ⟨hmain.1, fun fuel hf =>
    build_graph_stable hf fs repo g pkg ver md ex 0 [] hmain.1⟩

/-- Witness for the hypotheses of `C6_termination`: on the two-node
cycle with no depth limit, one unit of fuel beyond the computed bound
changes nothing. -/
theorem C6_termination_witness :
    build_graph_bfs_recursive (buildBound (singleFileFs cycFile) repoTest "A" + 1)
        (singleFileFs cycFile) repoTest DependencyGraph.init "A" "" none "" 0 [] =
      build_graph_bfs_recursive (buildBound (singleFileFs cycFile) repoTest "A")
        (singleFileFs cycFile) repoTest DependencyGraph.init "A" "" none "" 0 [] :=
  (C6_termination (singleFileFs cycFile) repoTest DependencyGraph.init "A" "" none "").2
    (buildBound (singleFileFs cycFile) repoTest "A" + 1) (Nat.le_succ _)

end Task2
